import Mathlib

/-!
Verification of the js2ics validation-and-formatting pipeline (src/index.js,
primary revision, the one whose line numbers the accompanying analysis cites).

The JavaScript module is shallowly embedded:
* JS objects (raw and validated option dictionaries) become structures whose
  fields are `Option`-valued; `none` models both `undefined` and JS `false`
  markers where the source uses `x || false`.
* JS string coercion of `undefined` (as in `undefined + '.ics'`) is modelled by
  `jsStr`, which renders `none` as `"undefined"`, exactly as `+` does in JS.
* lodash's `_.toString(undefined) = ''` (used by `_.endsWith`) is modelled by
  `lodashToString`.
* Ambient host state (`os.EOL`, `os.tmpdir()`, `momenttz.tz.guess()`, the
  current instant, and the host timezone's civil-time conversion used by
  moment's local formatting) is gathered in an explicit `Env` record.
* moment's fixed-format rendering `YYYYMMDDTHHmmss` is modelled over a civil
  `DateTime` record; parsing of well-formed `YYYY-MM-DDTHH:mm:ssZ` input is
  modelled by `parseISO` (range-checked, as moment invalidates overflowing
  components in non-strict mode); the host-zone conversion applied by moment
  when formatting a parsed instant is the abstract `Env.localize` field.
* `fs.writeFile` invokes its completion callback exactly once with a single
  `err` argument (Node API); the wrapper's second callback parameter therefore
  receives `undefined`. The write outcome is an explicit parameter.
-/

/-- JS truthiness of a possibly-absent string: `undefined` and `""` are falsy. -/
def truthyS (o : Option String) : Bool :=
  match o with
  | none => false
  | some s => s != ""

/-- JS string coercion as performed by `+`: `undefined` renders as `"undefined"`. -/
def jsStr (o : Option String) : String :=
  match o with
  | none => "undefined"
  | some s => s

/-- JS string coercion of a possibly-absent boolean. -/
def jsStrB (o : Option Bool) : String :=
  match o with
  | none => "undefined"
  | some true => "true"
  | some false => "false"

/-- lodash `_.toString`: `undefined` becomes the empty string. -/
def lodashToString (o : Option String) : String :=
  match o with
  | none => ""
  | some s => s

/-- `listLead needle hay`: `needle` is a leading segment of `hay`. -/
def listLead : List Char → List Char → Bool
  | [], _ => true
  | _ :: _, [] => false
  | a :: as, b :: bs => a == b && listLead as bs

/-- `listHas needle hay`: `needle` occurs contiguously inside `hay`. -/
def listHas (needle : List Char) : List Char → Bool
  | [] => needle.isEmpty
  | b :: bs => listLead needle (b :: bs) || listHas needle bs

/-- Substring test on strings, via the character lists. -/
def strHas (hay needle : String) : Bool :=
  listHas needle.data hay.data

/-- `s` ends with `suffix` (lodash `_.endsWith` on actual strings). -/
def strEnds (s suffix : String) : Bool :=
  listLead suffix.data.reverse s.data.reverse

/-- lodash wrapping `_(xs)` of a possibly-absent list: `undefined` acts as `[]`. -/
def lodashList {α : Type} (o : Option (List α)) : List α :=
  o.getD []

/-- lodash `_.join` (also used for `Array.prototype`-style joins in the source). -/
def sjoin (sep : String) : List String → String
  | [] => ""
  | [x] => x
  | x :: y :: xs => x ++ sep ++ sjoin sep (y :: xs)

/-- Node `path.join` for the shapes the source uses (a directory without a
trailing separator joined with a relative file name). -/
def pathJoin (dir file : String) : String :=
  dir ++ "/" ++ file

/-! ## Civil date-time model for moment -/

/-- A civil date-time, the value moment renders with format `YYYYMMDDTHHmmss`. -/
structure DateTime where
  y : Nat
  mo : Nat
  d : Nat
  h : Nat
  mi : Nat
  s : Nat
deriving DecidableEq, Repr

/-- Gregorian leap year. -/
def isLeap (y : Nat) : Bool :=
  y % 4 == 0 && (y % 100 != 0 || y % 400 == 0)

/-- Days in a Gregorian month (month numbered 1–12). -/
def daysInMonth (y m : Nat) : Nat :=
  match m with
  | 1 => 31 | 2 => if isLeap y then 29 else 28 | 3 => 31
  | 4 => 30 | 5 => 31 | 6 => 30
  | 7 => 31 | 8 => 31 | 9 => 30
  | 10 => 31 | 11 => 30 | 12 => 31
  | _ => 0

/-- Component validity of a civil date-time (4-digit year). -/
def validDT (dt : DateTime) : Bool :=
  decide (1 ≤ dt.mo ∧ dt.mo ≤ 12 ∧ 1 ≤ dt.d ∧ dt.d ≤ daysInMonth dt.y dt.mo ∧
    dt.h < 24 ∧ dt.mi < 60 ∧ dt.s < 60 ∧ dt.y < 10000)

/-- One hour of civil rollover (moment `add(1, 'h')` rendered in the same zone;
DST discontinuities are outside the model). -/
def addOneHour (dt : DateTime) : DateTime :=
  if dt.h + 1 < 24 then { dt with h := dt.h + 1 }
  else if dt.d + 1 ≤ daysInMonth dt.y dt.mo then { dt with h := 0, d := dt.d + 1 }
  else if dt.mo + 1 ≤ 12 then { dt with h := 0, d := 1, mo := dt.mo + 1 }
  else { dt with h := 0, d := 1, mo := 1, y := dt.y + 1 }

/-- moment `add(k, 'h')` (the source only uses `k` = 0 or 1; a call that leaves
the count `undefined` is a no-op in moment, i.e. `k` = 0). -/
def addHours (dt : DateTime) : Nat → DateTime
  | 0 => dt
  | k + 1 => addOneHour (addHours dt k)

/-- Two-digit zero-padded rendering (`MM`, `DD`, `HH`, `mm`, `ss`). -/
def pad2 (n : Nat) : String :=
  if n < 100 then String.mk [Nat.digitChar (n / 10), Nat.digitChar (n % 10)]
  else toString n

/-- Four-digit zero-padded rendering (`YYYY`). -/
def pad4 (n : Nat) : String :=
  if n < 10000 then
    String.mk [Nat.digitChar (n / 1000), Nat.digitChar (n / 100 % 10),
      Nat.digitChar (n / 10 % 10), Nat.digitChar (n % 10)]
  else toString n

/-- moment `format('YYYYMMDDTHHmmss')` on a civil date-time. -/
def formatIcal (dt : DateTime) : String :=
  pad4 dt.y ++ pad2 dt.mo ++ pad2 dt.d ++ "T" ++ pad2 dt.h ++ pad2 dt.mi ++ pad2 dt.s

/-- Digit value of a character. -/
def dv (c : Char) : Nat :=
  c.toNat - 48

/-- Parse a well-formed `YYYY-MM-DDTHH:mm:ssZ` string (the `Z` token matching a
numeric `±HH:mm` offset or the literal `Z`), returning the civil components and
the offset in seconds. Out-of-range components yield `none`, as moment
invalidates overflowing dates; every other shape also yields `none`. -/
def parseISO (s : String) : Option (DateTime × Int) :=
  match s.data with
  | [y1, y2, y3, y4, '-', m1, m2, '-', d1, d2, 'T',
     h1, h2, ':', n1, n2, ':', s1, s2, 'Z'] =>
    if (y1.isDigit && y2.isDigit && y3.isDigit && y4.isDigit &&
        m1.isDigit && m2.isDigit && d1.isDigit && d2.isDigit &&
        h1.isDigit && h2.isDigit && n1.isDigit && n2.isDigit &&
        s1.isDigit && s2.isDigit) then
      if validDT ⟨dv y1 * 1000 + dv y2 * 100 + dv y3 * 10 + dv y4,
          dv m1 * 10 + dv m2, dv d1 * 10 + dv d2,
          dv h1 * 10 + dv h2, dv n1 * 10 + dv n2, dv s1 * 10 + dv s2⟩ then
        some (⟨dv y1 * 1000 + dv y2 * 100 + dv y3 * 10 + dv y4,
          dv m1 * 10 + dv m2, dv d1 * 10 + dv d2,
          dv h1 * 10 + dv h2, dv n1 * 10 + dv n2, dv s1 * 10 + dv s2⟩, 0)
      else none
    else none
  | [y1, y2, y3, y4, '-', m1, m2, '-', d1, d2, 'T',
     h1, h2, ':', n1, n2, ':', s1, s2, sg, o1, o2, ':', o3, o4] =>
    if ((sg == '+' || sg == '-') &&
        y1.isDigit && y2.isDigit && y3.isDigit && y4.isDigit &&
        m1.isDigit && m2.isDigit && d1.isDigit && d2.isDigit &&
        h1.isDigit && h2.isDigit && n1.isDigit && n2.isDigit &&
        s1.isDigit && s2.isDigit &&
        o1.isDigit && o2.isDigit && o3.isDigit && o4.isDigit &&
        dv o1 * 10 + dv o2 < 24 && dv o3 * 10 + dv o4 < 60) then
      if validDT ⟨dv y1 * 1000 + dv y2 * 100 + dv y3 * 10 + dv y4,
          dv m1 * 10 + dv m2, dv d1 * 10 + dv d2,
          dv h1 * 10 + dv h2, dv n1 * 10 + dv n2, dv s1 * 10 + dv s2⟩ then
        some (⟨dv y1 * 1000 + dv y2 * 100 + dv y3 * 10 + dv y4,
          dv m1 * 10 + dv m2, dv d1 * 10 + dv d2,
          dv h1 * 10 + dv h2, dv n1 * 10 + dv n2, dv s1 * 10 + dv s2⟩,
          (if sg == '-' then -1 else 1) *
            ((dv o1 * 10 + dv o2) * 3600 + (dv o3 * 10 + dv o4) * 60 : Int))
      else none
    else none
  | _ => none

/-- The canonical 15-character `YYYYMMDDTHHmmss` shape. -/
def isCanonical15 (s : String) : Bool :=
  match s.data with
  | [a, b, c, d, e, f, g, h, t, i, j, k, l, m, n] =>
    a.isDigit && b.isDigit && c.isDigit && d.isDigit &&
    e.isDigit && f.isDigit && g.isDigit && h.isDigit &&
    t == 'T' &&
    i.isDigit && j.isDigit && k.isDigit && l.isDigit && m.isDigit && n.isDigit
  | _ => false

/-! ## Host environment -/

/-- Ambient host state read by the module at load time, plus the clock and the
host timezone's civil conversion that moment consults. `localize off dt` is the
host-zone civil time of the instant whose civil time at UTC offset `off`
seconds is `dt` (the tz database is an external collaborator). -/
structure Env where
  EOL : String
  tmpdir : String
  timezone : String
  now : DateTime
  localize : Int → DateTime → DateTime

/-! ## Option objects (raw and validated share one dictionary shape, as in JS) -/

/-- A person dictionary (`organizer` / `attendees` entries). Raw input may omit
any field; `validateAttendees` fills `rsvp`. -/
structure Person where
  name : Option String := none
  email : Option String := none
  rsvp : Option Bool := none
deriving DecidableEq, Repr

/-- An event options dictionary. Raw input uses `dtstamp`, `dtstart`, `dtend`,
`eventName`, `description`, `location`, `organizer`, `attendees`; validation
produces a fresh dictionary carrying `dtstamp`, `organizer`, `dtstart`,
`dtend`, `summary`, `description`, `location`, `attendees` (no `eventName`). -/
structure EvOpts where
  dtstamp : Option String := none
  dtstart : Option String := none
  dtend : Option String := none
  eventName : Option String := none
  summary : Option String := none
  description : Option String := none
  location : Option String := none
  organizer : Option Person := none
  attendees : Option (List Person) := none
deriving DecidableEq, Repr

/-- A calendar options dictionary. Raw input uses `filename`, `events`,
`timeZone`, `isValid`; validation produces `filePath` and `events`. -/
structure CalOpts where
  isValid : Bool := false
  filename : Option String := none
  filePath : Option String := none
  timeZone : Option String := none
  events : Option (List EvOpts) := none
deriving DecidableEq, Repr

/-- The empty event dictionary `{}` the source passes for a defaulted event. -/
def emptyEvOpts : EvOpts := {}

/-! ## Embedding of src/index.js -/

/-- `timeProperty(name, dtstamp)`: always interpolates the module-level guessed
timezone (`momenttz.tz.guess()`), i.e. `Env.timezone`. -/
def timeProperty (env : Env) (name dtstamp : String) : String :=
  name ++ ";TZID=" ++ env.timezone ++ ":" ++ dtstamp

/-- `ICAL_FORMATTERS.calendarHeader`. -/
def calendarHeader (env : Env) : String :=
  sjoin env.EOL ["BEGIN:VCALENDAR", "VERSION:2.0"]

/-- `ICAL_FORMATTERS.eventHeader(dtstamp)`. -/
def eventHeader (env : Env) (dtstamp : String) : String :=
  sjoin env.EOL ["", "BEGIN:VEVENT", timeProperty env "DTSTAMP" dtstamp]

/-- `ICAL_FORMATTERS.organizer(organizer)`. -/
def fmtOrganizer (o : Person) : String :=
  "ORGANIZER;CN=" ++ jsStr o.name ++ ":MAILTO:" ++ jsStr o.email

/-- `ICAL_FORMATTERS.attendee(attendee)`. -/
def fmtAttendee (a : Person) : String :=
  "ATTENDEE;CN=\"" ++ jsStr a.name ++ "\";RSVP=" ++ jsStrB a.rsvp ++ ":MAILTO:" ++ jsStr a.email

/-- `moment(dtstamp, inputTimeFormat).format(icalTimeFormat)` on a supplied
string: parse as ISO-8601-with-offset, then render the instant's host-zone
civil time in the canonical format; unparseable input renders moment's
`Invalid date`. -/
def momentReformat (env : Env) (s : String) : String :=
  match parseISO s with
  | some (dt, off) => formatIcal (env.localize off dt)
  | none => "Invalid date"

/-- `validateDateStamp(dtstamp, hoursToAddIfEmpty)`. A falsy stamp (absent or
empty) falls back to `moment().add(hoursToAddIfEmpty, 'h')`; the `dtstamp` call
site leaves the count `undefined`, which moment treats as adding nothing, so it
is passed here as `0`. -/
def validateDateStamp (env : Env) (dtstamp : Option String) (hoursToAddIfEmpty : Nat) : String :=
  match dtstamp with
  | some s => if s = "" then formatIcal (addHours env.now hoursToAddIfEmpty)
              else momentReformat env s
  | none => formatIcal (addHours env.now hoursToAddIfEmpty)

/-- `validateDateStart(dtstart)`. -/
def validateDateStart (env : Env) (dtstart : Option String) : String :=
  validateDateStamp env dtstart 0

/-- `validateDateEnd(dtend)`. -/
def validateDateEnd (env : Env) (dtend : Option String) : String :=
  validateDateStamp env dtend 1

/-- `isValidPerson(person)`: the person object and both `email` and `name` are
truthy. -/
def isValidPerson (person : Option Person) : Bool :=
  match person with
  | none => false
  | some p => truthyS p.email && truthyS p.name

/-- `validateOrganizer(organizer)`: the organizer itself if valid, else the
absent marker (JS `false`). -/
def validateOrganizer (organizer : Option Person) : Option Person :=
  if isValidPerson organizer then organizer else none

/-- Element-level validity used by the attendee filter (list elements are
present objects). -/
def isValidPersonElem (p : Person) : Bool :=
  truthyS p.email && truthyS p.name

/-- `validateAttendees(attendees)`: filter invalid entries, then copy
`email`/`name` and default `rsvp` (`attendee.rsvp ? attendee.rsvp : false`). -/
def validateAttendees (attendees : Option (List Person)) : List Person :=
  ((lodashList attendees).filter isValidPersonElem).map (fun a =>
    { email := a.email
      name := a.name
      rsvp := some (match a.rsvp with | some true => true | _ => false) })

/-- The fall-through branch of `validateFilePath`: the first assignment
`fileName ? fileName : DEFAULT_FILE_NAME` is dead in the source — the next line
overwrites it from the raw `fileName` — so only the second assignment is
modelled. -/
def validateFilePathDefault (env : Env) (fileName : Option String) : String :=
  let validFileName :=
    if strEnds (lodashToString fileName) ".ics" then jsStr fileName
    else jsStr fileName ++ ".ics"
  pathJoin env.tmpdir validFileName

/-- `validateFilePath(fileName, filePath)`: a truthy explicit path is returned
verbatim; otherwise the temp-dir path is built from `fileName`. -/
def validateFilePath (env : Env) (fileName filePath : Option String) : String :=
  match filePath with
  | some p => if p = "" then validateFilePathDefault env fileName else p
  | none => validateFilePathDefault env fileName

/-- `validateEventOptions(eventOptions)`: a fresh dictionary with every
canonical field resolved. -/
def validateEventOptions (env : Env) (eventOptions : EvOpts) : EvOpts :=
  { dtstamp := some (validateDateStamp env eventOptions.dtstamp 0)
    organizer := validateOrganizer eventOptions.organizer
    dtstart := some (validateDateStart env eventOptions.dtstart)
    dtend := some (validateDateEnd env eventOptions.dtend)
    summary := some (if truthyS eventOptions.eventName
      then jsStr eventOptions.eventName else "New Event")
    description := some (if truthyS eventOptions.description
      then jsStr eventOptions.description else "")
    location := if truthyS eventOptions.location then eventOptions.location else none
    attendees := some (validateAttendees eventOptions.attendees)
    eventName := none }

/-- `validateCalendarOptions(calendarOptions, filePath)`: pass-through on the
`isValid` marker, otherwise a fresh dictionary with the resolved file path and
the validated event list (one default event when `events` is absent/null; an
explicitly empty list is kept empty, `[]` being truthy in JS). -/
def validateCalendarOptions (env : Env) (calendarOptions : CalOpts) (filePath : Option String) :
    CalOpts :=
  if calendarOptions.isValid then calendarOptions
  else
    { isValid := false
      filename := none
      timeZone := none
      filePath := some (validateFilePath env calendarOptions.filename filePath)
      events := some (match calendarOptions.events with
        | some evs => evs.map (validateEventOptions env)
        | none => [validateEventOptions env emptyEvOpts]) }

/-- `formatCalendar(formattedEvents)`. -/
def formatCalendar (env : Env) (formattedEvents : String) : String :=
  sjoin env.EOL [calendarHeader env, formattedEvents, "END:VCALENDAR"]

/-- `formatEvent(validatedOptions)`: the parts array built by the source, then
joined with the platform separator. -/
def formatEvent (env : Env) (v : EvOpts) : String :=
  sjoin env.EOL
    ([eventHeader env (jsStr v.dtstamp)]
      ++ (match v.organizer with
          | some o => [fmtOrganizer o]
          | none => [])
      ++ (match v.attendees with
          | some as => as.map (fun attendee => fmtAttendee attendee)
          | none => [])
      ++ [timeProperty env "DTSTART" (jsStr v.dtstart),
          timeProperty env "DTEND" (jsStr v.dtend)]
      ++ (if truthyS v.location then ["LOCATION:" ++ jsStr v.location] else [])
      ++ ["DESCRIPTION:" ++ jsStr v.description,
          "SUMMARY:" ++ jsStr v.summary,
          "END:VEVENT"])

/-- `getCalendar(calendarOptions)`; the source's `_.omit(calendarOptions,
'isValid')` builds a copy whose result is discarded, so it has no effect. -/
def getCalendar (env : Env) (calendarOptions : CalOpts) : String :=
  let validated := validateCalendarOptions env calendarOptions none
  let formattedEvents := sjoin env.EOL ((lodashList validated.events).map (formatEvent env))
  formatCalendar env formattedEvents

/-- The single completion-callback invocation `toFile` performs, as the pair of
arguments the callback receives. `fs.writeFile` calls back with only an error
argument, so the wrapper's `destination` parameter is always `undefined`
(`none`); on failure the wrapper forwards the error alone. -/
def toFileCalls (outcome : Option String) (data filePath : String) :
    List (Option String × Option String) :=
  let _ := data
  let _ := filePath
  [match outcome with
   | some err => (some err, none)
   | none => (none, none)]

/-- The completion-callback invocations of `createCalendar(calendarOptions,
filePath, callback)` for a given write outcome. -/
def createCalendarCalls (env : Env) (outcome : Option String) (calendarOptions : CalOpts)
    (filePath : Option String) : List (Option String × Option String) :=
  let validated := validateCalendarOptions env calendarOptions filePath
  toFileCalls outcome (getCalendar env validated) (jsStr validated.filePath)

/-! ## Spec-side definitions and concrete fixtures -/

/-- Modelled from the spec: the event block as the spec enumerates it — empty
line, `BEGIN:VEVENT`, `DTSTAMP`, optional `ORGANIZER`, one `ATTENDEE` per
attendee in order, `DTSTART`, `DTEND`, optional `LOCATION`, `DESCRIPTION`
(always), `SUMMARY`, `END:VEVENT` — with `LOCATION` keyed on the location being
present. To be compared with the source's `formatEvent`. -/
def specEventLines (env : Env) (v : EvOpts) : List String :=
  ["", "BEGIN:VEVENT", "DTSTAMP;TZID=" ++ env.timezone ++ ":" ++ jsStr v.dtstamp]
    ++ (match v.organizer with
        | some o => ["ORGANIZER;CN=" ++ jsStr o.name ++ ":MAILTO:" ++ jsStr o.email]
        | none => [])
    ++ (lodashList v.attendees).map (fun a =>
        "ATTENDEE;CN=\"" ++ jsStr a.name ++ "\";RSVP=" ++ jsStrB a.rsvp
          ++ ":MAILTO:" ++ jsStr a.email)
    ++ ["DTSTART;TZID=" ++ env.timezone ++ ":" ++ jsStr v.dtstart,
        "DTEND;TZID=" ++ env.timezone ++ ":" ++ jsStr v.dtend]
    ++ (if v.location.isSome then ["LOCATION:" ++ jsStr v.location] else [])
    ++ ["DESCRIPTION:" ++ jsStr v.description,
        "SUMMARY:" ++ jsStr v.summary,
        "END:VEVENT"]

/-- A concrete host environment (Unix separators, a Paris host timezone, a UTC
host for `localize`, clock fixed at 2024-01-02 03:04:05). -/
def envFix : Env :=
  { EOL := "\n"
    tmpdir := "/tmp"
    timezone := "Europe/Paris"
    now := ⟨2024, 1, 2, 3, 4, 5⟩
    localize := fun _ dt => dt }

/-- A raw calendar carrying an explicit `timeZone` and one empty event. -/
def rawWithTz : CalOpts :=
  { timeZone := some "America/New_York", events := some [emptyEvOpts] }

/-- A raw calendar with an explicitly empty event list. -/
def rawEmptyEvents : CalOpts := { events := some [] }

/-- A raw calendar with no fields at all. -/
def rawAbsentEvents : CalOpts := {}

/-- The same host at a later clock reading (everything else unchanged). -/
def envFixLater : Env := { envFix with now := ⟨2030, 7, 8, 9, 10, 11⟩ }

/-- A pre-validated calendar used to exercise the `isValid` pass-through. -/
def rawPrevalidated : CalOpts :=
  { isValid := true
    filePath := some "/tmp/given.ics"
    events := some [{ dtstamp := some "20240102T030405"
                      dtstart := some "20240102T030405"
                      dtend := some "20240102T040405"
                      summary := some "S"
                      description := some ""
                      attendees := some [] }] }

/-! ## Helper lemmas -/

theorem sjoin_cons2 (sep a b : String) (xs : List String) :
    sjoin sep (sjoin sep [a, b] :: xs) = sjoin sep (a :: b :: xs) := by
  cases xs <;> simp [sjoin, String.append_assoc]

theorem sjoin_cons3 (sep a b c : String) (xs : List String) :
    sjoin sep (sjoin sep [a, b, c] :: xs) = sjoin sep (a :: b :: c :: xs) := by
  cases xs <;> simp [sjoin, String.append_assoc]

theorem listLead_self_append (xs ys : List Char) : listLead xs (xs ++ ys) = true := by
  induction xs with
  | nil => simp [listLead]
  | cons a as ih => simp [listLead, ih]

theorem listHas_nil_needle (hay : List Char) : listHas [] hay = true := by
  cases hay <;> simp [listHas, listLead, List.isEmpty]

theorem listHas_infix (p t s : List Char) : listHas t (p ++ t ++ s) = true := by
  induction p with
  | nil =>
    cases t with
    | nil => simpa using listHas_nil_needle s
    | cons c cs =>
      simp only [List.nil_append, List.cons_append, listHas, Bool.or_eq_true]
      exact Or.inl (by simpa using listLead_self_append (c :: cs) s)
  | cons a p' ih =>
    simp only [List.cons_append, listHas, Bool.or_eq_true]
    exact Or.inr ih

theorem sjoin_head_data (sep x : String) (xs : List String) :
    ∃ r, (sjoin sep (x :: xs)).data = x.data ++ r := by
  cases xs with
  | nil => exact ⟨[], by simp [sjoin]⟩
  | cons y ys =>
    exact ⟨sep.data ++ (sjoin sep (y :: ys)).data, by simp [sjoin, String.data_append]⟩

theorem digitChar_isDigit (n : Nat) (h : n < 10) : (Nat.digitChar n).isDigit = true := by
  interval_cases n <;> decide

theorem daysInMonth_le (y m : Nat) : daysInMonth y m ≤ 31 := by
  unfold daysInMonth
  split <;> first | omega | (split <;> omega)

theorem one_le_daysInMonth (y m : Nat) (h1 : 1 ≤ m) (hm : m ≤ 12) : 1 ≤ daysInMonth y m := by
  interval_cases m <;> simp only [daysInMonth] <;> first | omega | (split <;> omega)

theorem validDT_addOneHour (dt : DateTime) (h : validDT dt = true) (hy : dt.y ≤ 9998) :
    validDT (addOneHour dt) = true := by
  obtain ⟨y, mo, d, hr, mi, sec⟩ := dt
  dsimp only at hy
  simp only [validDT, decide_eq_true_eq] at h ⊢
  obtain ⟨h1, h2, h3, h4, h5, h6, h7, h8⟩ := h
  simp only [addOneHour]
  split
  · exact ⟨h1, h2, h3, h4, by dsimp only; omega, h6, h7, h8⟩
  · split
    next hd =>
      exact ⟨h1, h2, by dsimp only; omega, hd, by dsimp only; omega, h6, h7, h8⟩
    next hd =>
      split
      next hm =>
        exact ⟨by dsimp only; omega, hm, by dsimp only; omega,
          one_le_daysInMonth y (mo + 1) (by omega) hm, by dsimp only; omega, h6, h7, h8⟩
      next hm =>
        exact ⟨by dsimp only; omega, by dsimp only; omega, by dsimp only; omega,
          one_le_daysInMonth (y + 1) 1 (by omega) (by omega), by dsimp only; omega,
          h6, h7, by dsimp only; omega⟩

theorem formatIcal_data (dt : DateTime) (h : validDT dt = true) :
    (formatIcal dt).data =
      [Nat.digitChar (dt.y / 1000), Nat.digitChar (dt.y / 100 % 10),
       Nat.digitChar (dt.y / 10 % 10), Nat.digitChar (dt.y % 10),
       Nat.digitChar (dt.mo / 10), Nat.digitChar (dt.mo % 10),
       Nat.digitChar (dt.d / 10), Nat.digitChar (dt.d % 10), 'T',
       Nat.digitChar (dt.h / 10), Nat.digitChar (dt.h % 10),
       Nat.digitChar (dt.mi / 10), Nat.digitChar (dt.mi % 10),
       Nat.digitChar (dt.s / 10), Nat.digitChar (dt.s % 10)] := by
  simp only [validDT, decide_eq_true_eq] at h
  obtain ⟨h1, h2, h3, h4, h5, h6, h7, h8⟩ := h
  have hd : dt.d < 100 := by have := daysInMonth_le dt.y dt.mo; omega
  simp [formatIcal, pad4, pad2, h8, hd, String.data_append,
    show dt.mo < 100 by omega, show dt.h < 100 by omega,
    show dt.mi < 100 by omega, show dt.s < 100 by omega]

theorem formatIcal_canonical (dt : DateTime) (h : validDT dt = true) :
    isCanonical15 (formatIcal dt) = true := by
  have hh := h
  simp only [validDT, decide_eq_true_eq] at hh
  obtain ⟨h1, h2, h3, h4, h5, h6, h7, h8⟩ := hh
  have hd : dt.d < 100 := by have := daysInMonth_le dt.y dt.mo; omega
  rw [isCanonical15, formatIcal_data dt h]
  simp [digitChar_isDigit, Nat.mod_lt, Nat.div_lt_iff_lt_mul,
    show dt.y / 1000 < 10 by omega, show dt.y / 100 % 10 < 10 by omega,
    show dt.y / 10 % 10 < 10 by omega, show dt.y % 10 < 10 by omega,
    show dt.mo / 10 < 10 by omega, show dt.mo % 10 < 10 by omega,
    show dt.d / 10 < 10 by omega, show dt.d % 10 < 10 by omega,
    show dt.h / 10 < 10 by omega, show dt.h % 10 < 10 by omega,
    show dt.mi / 10 < 10 by omega, show dt.mi % 10 < 10 by omega,
    show dt.s / 10 < 10 by omega, show dt.s % 10 < 10 by omega]

theorem parseISO_valid (s : String) (dt : DateTime) (off : Int)
    (h : parseISO s = some (dt, off)) : validDT dt = true := by
  unfold parseISO at h
  split at h
  · split at h
    · split at h
      next hv => injection h with h'; injection h' with ha hb; exact ha ▸ hv
      next => simp at h
    · simp at h
  · split at h
    · split at h
      next hv => injection h with h'; injection h' with ha hb; exact ha ▸ hv
      next => simp at h
    · simp at h
  · simp at h

theorem listLead_append (t a b : List Char) (h : listLead t a = true) :
    listLead t (a ++ b) = true := by
  induction t generalizing a with
  | nil => simp [listLead]
  | cons c cs ih =>
    cases a with
    | nil => simp [listLead] at h
    | cons d ds =>
      simp only [listLead, Bool.and_eq_true, List.cons_append] at h ⊢
      exact ⟨h.1, ih ds h.2⟩

theorem listHas_append_left (t a b : List Char) (h : listHas t a = true) :
    listHas t (a ++ b) = true := by
  induction a with
  | nil =>
    cases t with
    | nil => exact listHas_nil_needle b
    | cons c cs => simp [listHas, List.isEmpty] at h
  | cons c a' ih =>
    simp only [listHas, Bool.or_eq_true, List.cons_append] at h ⊢
    cases h with
    | inl hl => exact Or.inl (by simpa using listLead_append t (c :: a') b hl)
    | inr hh => exact Or.inr (ih hh)

theorem listHas_suffix (p t : List Char) : listHas t (p ++ t) = true := by
  simpa using listHas_infix p t []

theorem strHas_of_head (sep x : String) (xs : List String) (t : String)
    (h : listHas t.data x.data = true) : strHas (sjoin sep (x :: xs)) t = true := by
  obtain ⟨r, hr⟩ := sjoin_head_data sep x xs
  unfold strHas
  rw [hr]
  exact listHas_append_left _ _ _ h

theorem listHas_append_right (t a b : List Char) (h : listHas t b = true) :
    listHas t (a ++ b) = true := by
  induction a with
  | nil => simpa using h
  | cons c a' ih =>
    simp only [List.cons_append, listHas, Bool.or_eq_true]
    exact Or.inr ih

theorem strHas_of_mem (sep : String) (l : List String) (x : String) (hx : x ∈ l) :
    strHas (sjoin sep l) x = true := by
  induction l with
  | nil => cases hx
  | cons y ys ih =>
    cases hx with
    | head =>
      cases ys with
      | nil =>
        unfold strHas
        simpa using listHas_infix [] x.data []
      | cons z zs =>
        unfold strHas
        rw [show sjoin sep (x :: z :: zs) = x ++ sep ++ sjoin sep (z :: zs) from rfl,
          String.data_append, String.data_append, List.append_assoc]
        exact listHas_append_left _ _ _ (by simpa using listHas_infix [] x.data [])
    | tail _ hmem =>
      cases ys with
      | nil => cases hmem
      | cons z zs =>
        unfold strHas
        rw [show sjoin sep (y :: z :: zs) = y ++ sep ++ sjoin sep (z :: zs) from rfl,
          String.data_append]
        exact listHas_append_right _ _ _ (ih hmem)

theorem filter_map_filterMap {α β : Type} (q : α → Bool) (f : α → β) (l : List α) :
    (l.filter q).map f = l.filterMap (fun a => if q a then some (f a) else none) := by
  induction l with
  | nil => rfl
  | cons a t ih =>
    by_cases h : q a
    · simp [List.filter_cons, List.filterMap_cons, h, ih]
    · simp [List.filter_cons, List.filterMap_cons, h, ih]

theorem rsvp_default (o : Option Bool) :
    (match o with | some true => true | _ => false) = o.getD false := by
  cases o with
  | none => rfl
  | some b => cases b <;> rfl

theorem validElem_iff (a : Person) :
    isValidPersonElem a = true ↔ (truthyS a.name = true ∧ truthyS a.email = true) := by
  simp [isValidPersonElem, Bool.and_eq_true, and_comm]

/-! ## Claims -/

/-- C8: for every calendar options structure whose `isValid` marker is true,
`validateCalendarOptions` returns the structure unchanged, bypassing all field
resolution, defaulting and event re-validation. -/
theorem spec_c8 (env : Env) (calendarOptions : CalOpts) (filePath : Option String)
    (h : calendarOptions.isValid = true) :
    validateCalendarOptions env calendarOptions filePath = calendarOptions := by
  simp [validateCalendarOptions, h]

theorem spec_c8_witness :
    rawPrevalidated.isValid = true ∧
    validateCalendarOptions envFix rawPrevalidated none = rawPrevalidated :=
  ⟨rfl, spec_c8 envFix rawPrevalidated none rfl⟩

/-- C10: every structure returned by `validateEventOptions` has all eight
canonical fields defined: the five string fields are present strings, the
attendee field is always a (possibly empty) list, the organizer is a valid
person or the absent marker, and the location is the supplied value or the
absent marker. -/
theorem spec_c10 (env : Env) (raw : EvOpts) :
    ((validateEventOptions env raw).dtstamp).isSome = true ∧
    ((validateEventOptions env raw).dtstart).isSome = true ∧
    ((validateEventOptions env raw).dtend).isSome = true ∧
    ((validateEventOptions env raw).summary).isSome = true ∧
    ((validateEventOptions env raw).description).isSome = true ∧
    (validateEventOptions env raw).attendees = some (validateAttendees raw.attendees) ∧
    ((validateEventOptions env raw).organizer = none ∨
      ∃ p, (validateEventOptions env raw).organizer = some p ∧
        isValidPerson (some p) = true) ∧
    ((validateEventOptions env raw).location = none ∨
      (validateEventOptions env raw).location = raw.location) := by
  refine ⟨rfl, rfl, rfl, rfl, rfl, rfl, ?_, ?_⟩
  · simp only [validateEventOptions, validateOrganizer]
    by_cases h : isValidPerson raw.organizer = true
    · rw [if_pos h]
      cases hp : raw.organizer with
      | none => exact Or.inl rfl
      | some p => exact Or.inr ⟨p, rfl, by rw [hp] at h; exact h⟩
    · rw [if_neg h]
      exact Or.inl rfl
  · simp only [validateEventOptions]
    by_cases h : truthyS raw.location = true
    · rw [if_pos h]
      exact Or.inr rfl
    · rw [if_neg h]
      exact Or.inl rfl

/-- C6: `validateAttendees` keeps exactly the entries with truthy name and
truthy email, in order, copying name and email and defaulting `rsvp` to the
supplied value or `false`. -/
theorem spec_c6 (attendees : Option (List Person)) :
    validateAttendees attendees =
      (lodashList attendees).filterMap (fun p =>
        if truthyS p.name = true ∧ truthyS p.email = true then
          some { name := p.name, email := p.email, rsvp := some (p.rsvp.getD false) }
        else none) := by
  unfold validateAttendees
  rw [filter_map_filterMap]
  refine congrArg (fun g => List.filterMap g (lodashList attendees)) (funext fun a => ?_)
  by_cases h : isValidPersonElem a = true
  · rw [if_pos h, if_pos ((validElem_iff a).mp h)]
    rcases ha : a.rsvp with _ | b
    · simp [ha]
    · cases b <;> simp [ha]
  · rw [if_neg h, if_neg (fun hc => h ((validElem_iff a).mpr hc))]

/-- C2: evaluation of `validateFilePath` at its decisive inputs. An explicit
path is returned verbatim and a supplied `fileName` gets its `.ics` suffix
exactly when missing, but an absent `fileName` yields `undefined.ics` (the
default-name assignment on line 105 of the source is dead, overwritten by the
next line), not the default `calendar-event.ics` the claim states. -/
theorem spec_c2_code_eval :
    validateFilePath envFix none none = pathJoin envFix.tmpdir "undefined.ics" ∧
    validateFilePath envFix none none ≠ pathJoin envFix.tmpdir "calendar-event.ics" ∧
    validateFilePath envFix (some "foo") none = pathJoin envFix.tmpdir "foo.ics" ∧
    validateFilePath envFix (some "foo.ics") none = pathJoin envFix.tmpdir "foo.ics" ∧
    validateFilePath envFix (some "foo") (some "/elsewhere/x.ics") = "/elsewhere/x.ics" := by
  decide

/-- C3: evaluation of the completion callback of `createCalendar`. The callback
is invoked exactly once and a write failure forwards the error, but a
successful write invokes it as `callback(null, undefined)` — `fs.writeFile`
passes no destination argument — even though the resolved destination path
exists (here `/tmp/undefined.ics`), contrary to the claim's
`callback(null, resolvedPath)`. -/
theorem spec_c3_code_eval :
    createCalendarCalls envFix none rawAbsentEvents none = [(none, none)] ∧
    createCalendarCalls envFix (some "EACCES") rawAbsentEvents none =
      [(some "EACCES", none)] ∧
    (validateCalendarOptions envFix rawAbsentEvents none).filePath =
      some "/tmp/undefined.ics" := by
  refine ⟨rfl, rfl, by decide⟩

/-- C1 counterexample: with a Paris host and a raw input supplying
`timeZone = America/New_York`, the rendered output carries
`TZID=Europe/Paris` and never `TZID=America/New_York` — the supplied
`timeZone` field does not reach the `TZID=` annotations. -/
theorem spec_c1_counterexample :
    strHas (getCalendar envFix rawWithTz) ("TZID=" ++ jsStr rawWithTz.timeZone) = false ∧
    strHas (getCalendar envFix rawWithTz) ("TZID=" ++ envFix.timezone) = true := by
  decide

/-- C1 (amended): the supplied `timeZone` field is ignored — `getCalendar` is
invariant under changing it — and every formatted event carries its `DTSTAMP`,
`DTSTART` and `DTEND` lines annotated with the host-detected timezone
(`momenttz.tz.guess()`). -/
theorem spec_c1_theorem (env : Env) (raw : CalOpts) (tz1 tz2 : Option String) :
    getCalendar env { raw with timeZone := tz1 } =
      getCalendar env { raw with timeZone := tz2 } ∧
    ∀ v : EvOpts,
      strHas (formatEvent env v)
        ("DTSTAMP;TZID=" ++ env.timezone ++ ":" ++ jsStr v.dtstamp) = true ∧
      strHas (formatEvent env v)
        ("DTSTART;TZID=" ++ env.timezone ++ ":" ++ jsStr v.dtstart) = true ∧
      strHas (formatEvent env v)
        ("DTEND;TZID=" ++ env.timezone ++ ":" ++ jsStr v.dtend) = true := by
  constructor
  · unfold getCalendar validateCalendarOptions
    cases h : raw.isValid <;> simp [h]
  · intro v
    refine ⟨?_, ?_, ?_⟩
    · rw [show ("DTSTAMP;TZID=" : String) = "DTSTAMP" ++ ";TZID=" from rfl]
      unfold formatEvent
      simp only [List.cons_append, List.nil_append]
      apply strHas_of_head
      have ht : (eventHeader env (jsStr v.dtstamp)).data =
          ("" ++ env.EOL ++ "BEGIN:VEVENT" ++ env.EOL).data ++
            ("DTSTAMP" ++ ";TZID=" ++ env.timezone ++ ":" ++ jsStr v.dtstamp).data := by
        simp [eventHeader, timeProperty, sjoin, String.data_append, List.append_assoc]
      rw [ht]
      exact listHas_suffix _ _
    · rw [show ("DTSTART;TZID=" : String) = "DTSTART" ++ ";TZID=" from rfl]
      unfold formatEvent timeProperty
      exact strHas_of_mem _ _ _ (by simp)
    · rw [show ("DTEND;TZID=" : String) = "DTEND" ++ ";TZID=" from rfl]
      unfold formatEvent timeProperty
      exact strHas_of_mem _ _ _ (by simp)

theorem formatEvent_env_congr (env1 env2 : Env) (hE : env1.EOL = env2.EOL)
    (hT : env1.timezone = env2.timezone) : formatEvent env1 = formatEvent env2 := by
  funext v
  unfold formatEvent eventHeader timeProperty
  rw [hE, hT]

/-- C9: `getCalendar` is deterministic on canonical (pre-validated) input: the
output depends only on the platform line separator and the host timezone — in
particular not on the clock — so two calls with identical input under a fixed
clock and separator return byte-identical strings; the embedding is a total
function, so no error is raised. -/
theorem spec_c9 (env1 env2 : Env) (calendarOptions : CalOpts)
    (h : calendarOptions.isValid = true) (hE : env1.EOL = env2.EOL)
    (hT : env1.timezone = env2.timezone) :
    getCalendar env1 calendarOptions = getCalendar env2 calendarOptions := by
  unfold getCalendar formatCalendar calendarHeader
  simp only [validateCalendarOptions, h, if_true]
  rw [hE, formatEvent_env_congr env1 env2 hE hT]

theorem spec_c9_witness :
    rawPrevalidated.isValid = true ∧
    getCalendar envFix rawPrevalidated = getCalendar envFixLater rawPrevalidated :=
  ⟨rfl, spec_c9 envFix envFixLater rawPrevalidated rfl rfl rfl⟩

/-- C5: with an explicitly empty `events` list the output has no event block at
all (no occurrence of `BEGIN:VEVENT`), while an absent/null `events` field
yields exactly one event block, the fully defaulted one. -/
theorem spec_c5 (env : Env) (raw : CalOpts) (hv : raw.isValid = false)
    (hEOL : env.EOL = "\n" ∨ env.EOL = "\r\n") :
    (raw.events = some [] →
      (validateCalendarOptions env raw none).events = some [] ∧
      getCalendar env raw =
        sjoin env.EOL ["BEGIN:VCALENDAR", "VERSION:2.0", "", "END:VCALENDAR"] ∧
      strHas (getCalendar env raw) "BEGIN:VEVENT" = false) ∧
    (raw.events = none →
      (validateCalendarOptions env raw none).events =
        some [validateEventOptions env emptyEvOpts] ∧
      getCalendar env raw =
        sjoin env.EOL ["BEGIN:VCALENDAR", "VERSION:2.0",
          formatEvent env (validateEventOptions env emptyEvOpts), "END:VCALENDAR"]) := by
  constructor
  · intro he
    have h2 : getCalendar env raw =
        sjoin env.EOL ["BEGIN:VCALENDAR", "VERSION:2.0", "", "END:VCALENDAR"] := by
      unfold getCalendar formatCalendar calendarHeader
      simp only [validateCalendarOptions, hv, he, Bool.false_eq_true, if_false,
        lodashList, Option.getD, List.map_nil]
      rw [show sjoin env.EOL [] = "" from rfl, sjoin_cons2]
    refine ⟨by simp [validateCalendarOptions, hv, he], h2, ?_⟩
    rw [h2]
    rcases hEOL with h | h <;> rw [h] <;> decide
  · intro he
    constructor
    · simp [validateCalendarOptions, hv, he]
    · unfold getCalendar formatCalendar calendarHeader
      simp only [validateCalendarOptions, hv, he, Bool.false_eq_true, if_false,
        lodashList, Option.getD, List.map_cons, List.map_nil]
      rw [show sjoin env.EOL [formatEvent env (validateEventOptions env emptyEvOpts)] =
        formatEvent env (validateEventOptions env emptyEvOpts) from rfl, sjoin_cons2]

theorem spec_c5_witness :
    (validateCalendarOptions envFix rawEmptyEvents none).events = some [] ∧
    strHas (getCalendar envFix rawEmptyEvents) "BEGIN:VEVENT" = false ∧
    (validateCalendarOptions envFix rawAbsentEvents none).events =
      some [validateEventOptions envFix emptyEvOpts] := by
  have h := spec_c5 envFix rawEmptyEvents rfl (Or.inl rfl)
  have h' := spec_c5 envFix rawAbsentEvents rfl (Or.inl rfl)
  exact ⟨(h.1 rfl).1, (h.1 rfl).2.2, (h'.2 rfl).1⟩

/-- C4: on every canonical event (the image of `validateEventOptions`), the
formatted event block is exactly the spec's line sequence — empty line,
`BEGIN:VEVENT`, `DTSTAMP`, optional `ORGANIZER`, one `ATTENDEE` per attendee in
order, `DTSTART`, `DTEND`, optional `LOCATION`, `DESCRIPTION` (always, even
empty), `SUMMARY`, `END:VEVENT` — joined with the platform separator. -/
theorem spec_c4 (env : Env) (raw : EvOpts) :
    formatEvent env (validateEventOptions env raw) =
      sjoin env.EOL (specEventLines env (validateEventOptions env raw)) := by
  unfold formatEvent specEventLines eventHeader timeProperty
  simp only [List.cons_append, List.nil_append, List.append_assoc]
  rw [sjoin_cons3]
  rw [show ("DTSTAMP;TZID=" : String) = "DTSTAMP" ++ ";TZID=" from rfl,
    show ("DTSTART;TZID=" : String) = "DTSTART" ++ ";TZID=" from rfl,
    show ("DTEND;TZID=" : String) = "DTEND" ++ ";TZID=" from rfl]
  simp only [validateEventOptions, fmtOrganizer, fmtAttendee, lodashList, Option.getD]
  cases hloc : raw.location with
  | none => simp [truthyS]
  | some s =>
    by_cases hs : s = ""
    · subst hs
      simp [truthyS]
    · simp [truthyS, hs]

/-- C7: at a fixed current instant, absent `dtstamp`/`dtstart` validate to the
current instant, absent `dtend` to the current instant plus one hour, all in
the canonical 15-character `YYYYMMDDTHHmmss` form; a supplied well-formed
ISO-8601-with-offset string is reformatted into that same canonical form. -/
theorem spec_c7 (env : Env) (hnow : validDT env.now = true) (hy : env.now.y ≤ 9998)
    (hloc : ∀ off : Int, ∀ dt : DateTime, validDT dt = true →
      validDT (env.localize off dt) = true) :
    (∀ raw : EvOpts, raw.dtstamp = none → raw.dtstart = none → raw.dtend = none →
      (validateEventOptions env raw).dtstamp = some (formatIcal env.now) ∧
      (validateEventOptions env raw).dtstart = some (formatIcal env.now) ∧
      (validateEventOptions env raw).dtend = some (formatIcal (addHours env.now 1)) ∧
      isCanonical15 (formatIcal env.now) = true ∧
      isCanonical15 (formatIcal (addHours env.now 1)) = true) ∧
    (∀ (s : String) (k : Nat) (dt : DateTime) (off : Int),
      parseISO s = some (dt, off) →
      validateDateStamp env (some s) k = formatIcal (env.localize off dt) ∧
      isCanonical15 (validateDateStamp env (some s) k) = true) := by
  constructor
  · intro raw h1 h2 h3
    refine ⟨?_, ?_, ?_, formatIcal_canonical _ hnow,
      formatIcal_canonical _ (by simpa [addHours] using validDT_addOneHour env.now hnow hy)⟩
    · simp [validateEventOptions, validateDateStamp, h1, addHours]
    · simp [validateEventOptions, validateDateStart, validateDateStamp, h2, addHours]
    · simp [validateEventOptions, validateDateEnd, validateDateStamp, h3]
  · intro s k dt off hp
    have hs : s ≠ "" := by
      intro h
      rw [h, show parseISO "" = none from rfl] at hp
      exact Option.noConfusion hp
    have heq : validateDateStamp env (some s) k = formatIcal (env.localize off dt) := by
      simp [validateDateStamp, hs, momentReformat, hp]
    exact ⟨heq,
      heq ▸ formatIcal_canonical _ (hloc off dt (parseISO_valid s dt off hp))⟩

theorem spec_c7_witness :
    (validateEventOptions envFix emptyEvOpts).dtstamp = some (formatIcal envFix.now) ∧
    (validateEventOptions envFix emptyEvOpts).dtend =
      some (formatIcal (addHours envFix.now 1)) ∧
    isCanonical15 (formatIcal envFix.now) = true ∧
    validateDateStamp envFix (some "2024-01-02T03:04:05+02:00") 0 =
      formatIcal (envFix.localize 7200 ⟨2024, 1, 2, 3, 4, 5⟩) ∧
    isCanonical15 (validateDateStamp envFix (some "2024-01-02T03:04:05+02:00") 0) = true := by
  have h := spec_c7 envFix (by decide) (by decide)
    (fun off dt hdt => by simpa [envFix] using hdt)
  obtain ⟨hd, _, he, hc, _⟩ := h.1 emptyEvOpts rfl rfl rfl
  obtain ⟨hp1, hp2⟩ := h.2 "2024-01-02T03:04:05+02:00" 0 ⟨2024, 1, 2, 3, 4, 5⟩ 7200 (by decide)
  exact ⟨hd, he, hc, hp1, hp2⟩
